import Mathlib

/-!
Shallow embedding of the bechobazaar price-advisor serverless handlers.

The development models, from the JavaScript sources:
  * JSON values and the behaviour of `JSON.parse` / `JSON.stringify`;
  * the JavaScript coercions the handlers rely on (`Number`, truthiness,
    `Math.round`, `x || null`);
  * the Tavily evidence gatherer (`tavilySearch`) and the by-url merge;
  * the reply-parsing stages of the OpenAI handler variants;
  * the guardrail repairs of the canonical web handler
    (band swap, midpoint fill, clamp, confidence / why / sources defaults);
  * the web_search retry policy of the Responses-API variant.
-/

namespace PriceAdvisor

/-- Character code 34, the double quote. -/
def chDQ : Char := Char.ofNat 34

/-- Character code 39, the plain apostrophe. -/
def chSQ : Char := Char.ofNat 39

/-- Character code 123, the opening curly brace. -/
def chLB : Char := Char.ofNat 123

/-- Character code 125, the closing curly brace. -/
def chRB : Char := Char.ofNat 125

/-- Unicode left double quotation mark (U+201C). -/
def chLQ : Char := Char.ofNat 0x201C

/-- Unicode right double quotation mark (U+201D). -/
def chRQ : Char := Char.ofNat 0x201D

/-- Unicode left single quotation mark (U+2018). -/
def chLSQ : Char := Char.ofNat 0x2018

/-- Unicode right single quotation mark (U+2019). -/
def chRSQ : Char := Char.ofNat 0x2019

/-- Model of `String.toLowerCase` over the character list (kept
kernel-computable). -/
def jsToLower (s : String) : String :=
  String.mk (s.toList.map Char.toLower)

/-- Model of `String.prototype.trim` over the character list. -/
def jsTrim (s : String) : String :=
  String.mk
    (((s.toList.dropWhile Char.isWhitespace).reverse.dropWhile
        Char.isWhitespace).reverse)

/-- Model of `String.prototype.slice(0, n)` over the character list. -/
def jsTake (s : String) (n : Nat) : String :=
  String.mk (s.toList.take n)

/-- JSON values, as produced by `JSON.parse`. Numbers are kept as exact
rationals; an object keeps its fields in textual order. -/
inductive JValue : Type where
  | null : JValue
  | bool : Bool → JValue
  | num : ℚ → JValue
  | str : String → JValue
  | arr : List JValue → JValue
  | obj : List (String × JValue) → JValue

/-- Field lookup in an object's field list; the last binding of a repeated
key wins, as in `JSON.parse`. -/
def jgetFields : List (String × JValue) → String → Option JValue
  | [], _ => none
  | (k, v) :: rest, key =>
    match jgetFields rest key with
    | some r => some r
    | none => if k = key then some v else none

/-- Property access `v.key`: `undefined` (modelled as `none`) on anything
that is not an object with that key. -/
def jget : JValue → String → Option JValue
  | .obj fs, key => jgetFields fs key
  | _, _ => none

/-- JavaScript truthiness of a parsed JSON value. -/
def jsTruthy : JValue → Bool
  | .null => false
  | .bool b => b
  | .num q => q ≠ 0
  | .str s => s ≠ ""
  | .arr _ => true
  | .obj _ => true

/-- Decimal digits at the front of a character list, and the rest. -/
def takeDigits (l : List Char) : List Char × List Char :=
  (l.takeWhile Char.isDigit, l.dropWhile Char.isDigit)

/-- Value of a list of decimal digits. -/
def digitsVal (l : List Char) : Nat :=
  l.foldl (fun a c => a * 10 + (c.toNat - 48)) 0

/-- Exponent marker of a numeric literal: `e`/`E`, an optional sign, then
at least one digit. Absence of a marker is exponent `0`. -/
def parseExpPart (l : List Char) : Option (ℤ × List Char) :=
  match l with
  | 'e' :: r =>
    (match r with
     | '+' :: r2 =>
       let (d, r3) := takeDigits r2
       if d.isEmpty then none else some ((digitsVal d : ℤ), r3)
     | '-' :: r2 =>
       let (d, r3) := takeDigits r2
       if d.isEmpty then none else some (-(digitsVal d : ℤ), r3)
     | r2 =>
       let (d, r3) := takeDigits r2
       if d.isEmpty then none else some ((digitsVal d : ℤ), r3))
  | 'E' :: r =>
    (match r with
     | '+' :: r2 =>
       let (d, r3) := takeDigits r2
       if d.isEmpty then none else some ((digitsVal d : ℤ), r3)
     | '-' :: r2 =>
       let (d, r3) := takeDigits r2
       if d.isEmpty then none else some (-(digitsVal d : ℤ), r3)
     | r2 =>
       let (d, r3) := takeDigits r2
       if d.isEmpty then none else some ((digitsVal d : ℤ), r3))
  | _ => some (0, l)

/-- The exact rational `m * 10 ^ e` of a decimal literal, built with the
kernel-computable `Rat.divInt`. -/
def qOfDec (m : ℤ) (e : ℤ) : ℚ :=
  if 0 ≤ e then Rat.divInt (m * (10 : ℤ) ^ e.toNat) 1
  else Rat.divInt m ((10 : ℤ) ^ (-e).toNat)

/-- A JSON numeric literal: optional minus, an integer part without leading
zeros, an optional fraction, an optional exponent. -/
def parseJsonNumber (l : List Char) : Option (ℚ × List Char) :=
  let sl : Bool × List Char :=
    match l with
    | '-' :: r => (true, r)
    | r => (false, r)
  let neg := sl.1
  let (ip, r1) := takeDigits sl.2
  if ip.isEmpty then none
  else if 1 < ip.length ∧ ip.head? = some '0' then none
  else
    let fr : List Char × List Char :=
      match r1 with
      | '.' :: rf =>
        let (fp, r3) := takeDigits rf
        if fp.isEmpty then ([], r1) else (fp, r3)
      | _ => ([], r1)
    match parseExpPart fr.2 with
    | none => none
    | some (e, r4) =>
      let mAbs : ℤ :=
        (digitsVal ip : ℤ) * (10 : ℤ) ^ fr.1.length + (digitsVal fr.1 : ℤ)
      some (qOfDec (if neg then -mAbs else mAbs) (e - (fr.1.length : ℤ)), r4)

/-- JSON whitespace. -/
def isJsonWs (c : Char) : Bool :=
  c = ' ' || c = Char.ofNat 9 || c = Char.ofNat 10 || c = Char.ofNat 13

/-- Drop leading JSON whitespace. -/
def skipWs (l : List Char) : List Char := l.dropWhile isJsonWs

/-- Hexadecimal digit value. -/
def hexVal (c : Char) : Option Nat :=
  if '0' ≤ c ∧ c ≤ '9' then some (c.toNat - 48)
  else if 'a' ≤ c ∧ c ≤ 'f' then some (c.toNat - 87)
  else if 'A' ≤ c ∧ c ≤ 'F' then some (c.toNat - 55)
  else none

/-- Single-character JSON string escapes. -/
def escChar (e : Char) : Option Char :=
  if e = chDQ then some chDQ
  else if e = '\\' then some '\\'
  else if e = '/' then some '/'
  else if e = 'b' then some (Char.ofNat 8)
  else if e = 'f' then some (Char.ofNat 12)
  else if e = 'n' then some (Char.ofNat 10)
  else if e = 'r' then some (Char.ofNat 13)
  else if e = 't' then some (Char.ofNat 9)
  else none

/-- Body of a JSON string literal (after the opening quote): characters and
escapes up to the closing quote. Fuel bounds the recursion; one unit per
consumed character suffices. -/
def parseJStringF : Nat → List Char → Option (String × List Char)
  | 0, _ => none
  | _ + 1, [] => none
  | f + 1, c :: cs =>
    if c = chDQ then some ("", cs)
    else if c = '\\' then
      match cs with
      | [] => none
      | e :: cs2 =>
        if e = 'u' then
          match cs2 with
          | a :: b :: c2 :: d :: cs3 =>
            match hexVal a, hexVal b, hexVal c2, hexVal d with
            | some x, some y, some z, some w =>
              (parseJStringF f cs3).map
                (fun p => ((Char.ofNat (((x * 16 + y) * 16 + z) * 16 + w)).toString ++ p.1, p.2))
            | _, _, _, _ => none
          | _ => none
        else
          match escChar e with
          | none => none
          | some ch => (parseJStringF f cs2).map (fun p => (ch.toString ++ p.1, p.2))
    else (parseJStringF f cs).map (fun p => (c.toString ++ p.1, p.2))

mutual

/-- One JSON value, by recursive descent; fuel bounds the recursion. -/
def parseJ : Nat → List Char → Option (JValue × List Char)
  | 0, _ => none
  | f + 1, cs =>
    match skipWs cs with
    | [] => none
    | c :: rest =>
      if c = chLB then
        match skipWs rest with
        | [] => none
        | d :: rest2 =>
          if d = chRB then some (.obj [], rest2)
          else (parseFields f (d :: rest2)).map (fun p => (JValue.obj p.1, p.2))
      else if c = '[' then
        match skipWs rest with
        | [] => none
        | d :: rest2 =>
          if d = ']' then some (.arr [], rest2)
          else (parseElems f (d :: rest2)).map (fun p => (JValue.arr p.1, p.2))
      else if c = chDQ then
        (parseJStringF (rest.length + 1) rest).map (fun p => (JValue.str p.1, p.2))
      else if c = 'n' then
        match rest with
        | 'u' :: 'l' :: 'l' :: r => some (.null, r)
        | _ => none
      else if c = 't' then
        match rest with
        | 'r' :: 'u' :: 'e' :: r => some (.bool true, r)
        | _ => none
      else if c = 'f' then
        match rest with
        | 'a' :: 'l' :: 's' :: 'e' :: r => some (.bool false, r)
        | _ => none
      else
        (parseJsonNumber (c :: rest)).map (fun p => (JValue.num p.1, p.2))

/-- Comma-separated array elements up to the closing bracket. -/
def parseElems : Nat → List Char → Option (List JValue × List Char)
  | 0, _ => none
  | f + 1, cs =>
    match parseJ f cs with
    | none => none
    | some (v, r) =>
      match skipWs r with
      | [] => none
      | d :: r2 =>
        if d = ',' then
          match parseElems f r2 with
          | none => none
          | some (l, r3) => some (v :: l, r3)
        else if d = ']' then some ([v], r2)
        else none

/-- Comma-separated object members up to the closing brace. -/
def parseFields : Nat → List Char → Option (List (String × JValue) × List Char)
  | 0, _ => none
  | f + 1, cs =>
    match skipWs cs with
    | [] => none
    | q :: r1 =>
      if q = chDQ then
        match parseJStringF (r1.length + 1) r1 with
        | none => none
        | some (k, r2) =>
          match skipWs r2 with
          | [] => none
          | colon :: r3 =>
            if colon = ':' then
              match parseJ f r3 with
              | none => none
              | some (v, r4) =>
                match skipWs r4 with
                | [] => none
                | d :: r5 =>
                  if d = ',' then
                    match parseFields f r5 with
                    | none => none
                    | some (l, r6) => some ((k, v) :: l, r6)
                  else if d = chRB then some ([(k, v)], r5)
                  else none
            else none
      else none

end

/-- Model of `JSON.parse`: a single JSON value with nothing but whitespace
around it, else failure. -/
def jsonParse (s : String) : Option JValue :=
  match parseJ (2 * s.length + 8) s.toList with
  | none => none
  | some (v, rest) => if (skipWs rest).isEmpty then some v else none

/-- Lenient numeric core of `Number(string)`: digits with an optional
fraction, where either side of the point may be empty but not both; yields
the absolute mantissa and the fraction length. -/
def parseDecCore (l : List Char) : Option ((ℤ × ℕ) × List Char) :=
  let (ip, r1) := takeDigits l
  match ip, r1 with
  | [], '.' :: r2 =>
    let (fp, r3) := takeDigits r2
    if fp.isEmpty then none
    else some (((digitsVal fp : ℤ), fp.length), r3)
  | [], _ => none
  | _, '.' :: r2 =>
    let (fp, r3) := takeDigits r2
    some (((digitsVal ip : ℤ) * (10 : ℤ) ^ fp.length + (digitsVal fp : ℤ),
           fp.length), r3)
  | _, _ => some (((digitsVal ip : ℤ), 0), r1)

/-- Model of `Number(string)` on decimal inputs: trims whitespace, the empty
string is `0`, otherwise an optional sign, a decimal literal and an optional
exponent consuming the whole string; anything else is `NaN` (`none`). -/
def jsNumOfString (s : String) : Option ℚ :=
  let t := jsTrim s
  if t = "" then some 0
  else
    let sl : Bool × List Char :=
      match t.toList with
      | '+' :: r => (false, r)
      | '-' :: r => (true, r)
      | r => (false, r)
    match parseDecCore sl.2 with
    | none => none
    | some (md, r1) =>
      match parseExpPart r1 with
      | none => none
      | some (e, r2) =>
        if r2.isEmpty then
          some (qOfDec (if sl.1 then -md.1 else md.1) (e - (md.2 : ℤ)))
        else none

/-- Model of `Number(v)` on parsed JSON values (`none` is `NaN`): `null` is
`0`, booleans are `1`/`0`, strings go through the string-to-number coercion,
an empty array is `0`, a one-element array coerces its element's primitive
form, and plain objects or longer arrays are `NaN`. -/
def jsNumber : JValue → Option ℚ
  | .null => some 0
  | .bool b => some (if b then 1 else 0)
  | .num q => some q
  | .str s => jsNumOfString s
  | .arr [] => some 0
  | .arr [x] =>
    (match x with
     | .null => some 0
     | .num q => some q
     | .str s => jsNumOfString s
     | _ => none)
  | .arr _ => none
  | .obj _ => none

/-- Model of `Math.round`: round half toward positive infinity, i.e. the
floor of `q + 1/2`, written as a kernel-computable integer division. -/
def jsRound (q : ℚ) : ℤ := (2 * q.num + (q.den : ℤ)) / (2 * (q.den : ℤ))

/-- The handler's `toN`: `v == null` (null or undefined) gives `null`;
otherwise `Number(v)`, `null` on `NaN`, else `Math.round`. -/
def toN (v : Option JValue) : Option ℤ :=
  match v with
  | none => none
  | some .null => none
  | some w => (jsNumber w).map jsRound

/-- Truthiness of a `number | null` slot (`null` and `0` are falsy). -/
def truthyN : Option ℤ → Bool
  | none => false
  | some n => n ≠ 0

/-- The handler's `x || null` on a `number | null` slot: `0` becomes `null`. -/
def orNull : Option ℤ → Option ℤ
  | none => none
  | some n => if n = 0 then none else some n

/-- The sequential clamp of the guardrails: raise below the low bound, then
cut above the high bound. -/
def clampJS (s a b : ℤ) : ℤ :=
  let s1 := if s < a then a else s
  if b < s1 then b else s1

/-- String escaping of `JSON.stringify` (the escapes the sources can hit). -/
def escJChar (c : Char) : String :=
  if c = chDQ then "\\" ++ chDQ.toString
  else if c = '\\' then "\\\\"
  else if c = Char.ofNat 10 then "\\n"
  else if c = Char.ofNat 13 then "\\r"
  else if c = Char.ofNat 9 then "\\t"
  else if c = Char.ofNat 8 then "\\b"
  else if c = Char.ofNat 12 then "\\f"
  else c.toString

/-- A JSON string literal. -/
def jstrLit (s : String) : String :=
  chDQ.toString ++ String.join (s.toList.map escJChar) ++ chDQ.toString

/-- Digits of the fractional part of a fraction `rem / d`, by long division
(fuel-bounded; the rationals produced by the parser terminate). -/
def fracLoop : Nat → Nat → Nat → String
  | 0, _, _ => ""
  | f + 1, rem, d =>
    if rem = 0 then ""
    else
      let rem10 := rem * 10
      toString (rem10 / d) ++ fracLoop f (rem10 % d) d

/-- Decimal rendering of a rational, close to JavaScript's default number
formatting on the exact decimals `JSON.parse` yields. -/
def qToJsString (q : ℚ) : String :=
  let sgn := if q.num < 0 then "-" else ""
  let n := q.num.natAbs
  let ip := n / q.den
  let r := n % q.den
  if r = 0 then sgn ++ toString ip
  else sgn ++ toString ip ++ "." ++ fracLoop 40 r q.den

/-- Fuelled body of `jsonStringify`; `sizeOf` of the value bounds the depth. -/
def jsonStringifyF : Nat → JValue → String
  | 0, _ => ""
  | f + 1, v =>
    match v with
    | .null => "null"
    | .bool true => "true"
    | .bool false => "false"
    | .num q => qToJsString q
    | .str s => jstrLit s
    | .arr l => "[" ++ String.intercalate "," (l.map (jsonStringifyF f)) ++ "]"
    | .obj fs =>
      chLB.toString ++
        String.intercalate ","
          (fs.map (fun kv => jstrLit kv.1 ++ ":" ++ jsonStringifyF f kv.2)) ++
        chRB.toString

mutual

/-- Size of a JSON value, a fuel bound for the serializer. -/
def jSize : JValue → Nat
  | .null => 1
  | .bool _ => 1
  | .num _ => 1
  | .str _ => 1
  | .arr l => 1 + jSizeList l
  | .obj fs => 1 + jSizeFields fs

/-- Size of a list of JSON values. -/
def jSizeList : List JValue → Nat
  | [] => 0
  | x :: xs => 1 + jSize x + jSizeList xs

/-- Size of an object's field list. -/
def jSizeFields : List (String × JValue) → Nat
  | [] => 0
  | (_, v) :: rest => 1 + jSize v + jSizeFields rest

end

/-- Model of `JSON.stringify` on parsed JSON values. -/
def jsonStringify (v : JValue) : String := jsonStringifyF (jSize v) v

/-- An evidence item as built by `tavilySearch`: title, url and a snippet
capped at 400 characters. -/
structure Evidence : Type where
  title : String
  url : String
  snippet : String
deriving DecidableEq

/-- Projection of an optional JSON value to the string the code stores. -/
def asString (v : Option JValue) : String :=
  match v with
  | some (.str s) => s
  | _ => ""

/-- One raw provider result mapped to an `Evidence` record
(`x.content?.slice(0, 400) || ""`). -/
def mkEvidence (x : JValue) : Evidence :=
  { title := asString (jget x "title")
    url := asString (jget x "url")
    snippet := jsTake (asString (jget x "content")) 400 }

/-- Outcome of the platform `fetch`: a rejection message, or a response with
a success flag and a body. -/
structure FetchResp : Type where
  ok : Bool
  body : String
deriving DecidableEq

/-- Result shape of `tavilySearch`. -/
structure TavilyOut : Type where
  results : List Evidence
  used : Bool
deriving DecidableEq

/-- Model of `tavilySearch` (price-advisor-web.js, first handler): with no
key it answers empty without calling out; a rejected `fetch` is not caught
and so propagates; a non-ok status degrades to empty; the body is parsed
with `r.json().catch(() => (\x7b\x7d))` and a missing or non-array `results`
field degrades to empty. -/
def tavilySearch (key : String) (fetched : Except String FetchResp) :
    Except String TavilyOut :=
  if key = "" then .ok { results := [], used := false }
  else
    match fetched with
    | .error e => .error e
    | .ok resp =>
      if !resp.ok then .ok { results := [], used := true }
      else
        let j := (jsonParse resp.body).getD (.obj [])
        let items :=
          match jget j "results" with
          | some (.arr l) => l
          | _ => []
        .ok { results := items.map mkEvidence, used := true }

/-- The `byUrl` merge of the handler: walk the concatenated result lists,
keeping an item only when its url is truthy and not seen before (insertion
order of a JS `Map`). -/
def mergeByUrl (xs : List Evidence) : List Evidence :=
  xs.foldl
    (fun acc x =>
      if x.url ≠ "" ∧ acc.all (fun y => y.url ≠ x.url) then acc ++ [x] else acc)
    []

/-- Reference form of the merge for the proofs: the pending `seen` url set
made explicit. -/
def mergeGo (seen : List String) : List Evidence → List Evidence
  | [] => []
  | x :: xs =>
    if x.url ≠ "" ∧ seen.all (fun u => u ≠ x.url) then
      x :: mergeGo (seen ++ [x.url]) xs
    else mergeGo seen xs

/-- The web snippets record passed on to the prompt and the guardrails. -/
structure WebInfo : Type where
  results : List Evidence
  used : Bool
deriving DecidableEq

/-- Steps 3 of the web handler: both Tavily queries, the by-url merge and
the cap at 10; a rejection of either `fetch` escapes to the handler's
outer catch. -/
def gatherEvidence (key : String) (f1 f2 : Except String FetchResp) :
    Except String WebInfo :=
  match tavilySearch key f1 with
  | .error e => .error e
  | .ok usedRes =>
    match tavilySearch key f2 with
    | .error e => .error e
    | .ok launchRes =>
      .ok { results := (mergeByUrl (usedRes.results ++ launchRes.results)).take 10
            used := usedRes.used || launchRes.used }

/-- First index at which `needle` occurs in a character list. -/
def findSubIdx (needle : List Char) : List Char → Option Nat
  | [] => if needle.isEmpty then some 0 else none
  | c :: cs =>
    if needle.isPrefixOf (c :: cs) then some 0
    else (findSubIdx needle cs).map (· + 1)

/-- Whether `needle` occurs inside `hay`. -/
def containsSub (needle hay : String) : Bool :=
  (findSubIdx needle.toList hay.toList).isSome

/-- The fenced-JSON capture of the web handler's
`txt.match(/(three backticks)json([\s\S]*?)(three backticks)/i)`: the text
between the first case-insensitive occurrence of a ```json marker and the
next fence, when both exist. -/
def fencedJson (txt : String) : Option String :=
  let cs := txt.toList
  let low := cs.map Char.toLower
  match findSubIdx ("```json".toList) low with
  | none => none
  | some i =>
    let inner := cs.drop (i + 7)
    let innerLow := low.drop (i + 7)
    match findSubIdx ("```".toList) innerLow with
    | none => none
    | some j => some (String.mk (inner.take j))

/-- The web handler's reply parsing (`askOpenAI`): parse the fenced capture
when present, else the whole text; on parse failure fall back to the object
`(why := txt)` instead of failing. -/
def webParse (txt : String) : JValue :=
  let raw := (fencedJson txt).getD txt
  match jsonParse raw with
  | some v => v
  | none => .obj [("why", .str txt)]

/-- Case-insensitive front-match test against a lowercase pattern. -/
def ciStarts (pat : List Char) (l : List Char) : Bool :=
  pat.isPrefixOf ((l.take pat.length).map Char.toLower)

/-- Fuelled fence stripper of `coerceJsonString`: the global replace of the
alternation of a ```json marker (case-insensitive) and a bare fence. -/
def stripFencesF : Nat → List Char → List Char
  | 0, l => l
  | f + 1, l =>
    match l with
    | [] => []
    | c :: cs =>
      if ciStarts ("```json".toList) (c :: cs) then stripFencesF f ((c :: cs).drop 7)
      else if ciStarts ("```".toList) (c :: cs) then stripFencesF f ((c :: cs).drop 3)
      else c :: stripFencesF f cs

/-- Fence stripping with enough fuel for the whole list. -/
def stripFences (l : List Char) : List Char := stripFencesF (l.length + 1) l

/-- The brace isolation of `coerceJsonString`: when an opening brace occurs
before the last closing brace, keep only that substring. -/
def braceSlice (l : List Char) : List Char :=
  match l.findIdx? (· = chLB) with
  | none => l
  | some a =>
    match l.reverse.findIdx? (· = chRB) with
    | none => l
    | some rj =>
      let b := l.length - 1 - rj
      if a < b then (l.drop a).take (b - a + 1) else l

/-- Smart-quote normalization of `coerceJsonString`. -/
def smartQuotes (l : List Char) : List Char :=
  l.map (fun c =>
    if c = chLQ ∨ c = chRQ then chDQ
    else if c = chLSQ ∨ c = chRSQ then chSQ
    else c)

/-- Model of `coerceJsonString`: trim, strip fences, isolate the first
opening brace to the last closing brace, normalize smart quotes. -/
def coerceJsonString (s : String) : String :=
  String.mk (smartQuotes (braceSlice (stripFences (jsTrim s).toList)))

/-- Outcome of an OpenAI-handler parse stage: the distinct parse-failure
response, or a success carrying the parsed value. -/
inductive OAOutcome : Type where
  | parseError : String → OAOutcome
  | success : JValue → OAOutcome

/-- Whether an outcome is the parse-failure response. -/
def OAOutcome.isParseFailure : OAOutcome → Bool
  | .parseError _ => true
  | .success _ => false

/-- Parse stage of price-advisor-openai.js (first handler): `JSON.parse` on
the raw extracted text, then `if (!parsed || typeof parsed !== "object")`
fail with "Failed to parse JSON from model"; note there is no fence or
quote coercion in this variant. -/
def openaiParseStage (raw : String) : OAOutcome :=
  match jsonParse raw with
  | none => .parseError "Failed to parse JSON from model"
  | some (.obj fs) => .success (.obj fs)
  | some (.arr l) => .success (.arr l)
  | some _ => .parseError "Failed to parse JSON from model"

/-- Parse stage of the coercing OpenAI variant (second handler in
price-advisor-web.js): `coerceJsonString` then `JSON.parse`, failing with
"Failed to parse JSON from model" only when the parse throws. -/
def openaiCoerceStage (rawText : String) : OAOutcome :=
  match jsonParse (coerceJsonString rawText) with
  | none => .parseError "Failed to parse JSON from model"
  | some v => .success v

/-- An emitted source entry: `title: s.title || "source"` keeps whatever
truthy value was there, `url: s.url` may be absent. -/
structure SourceOut : Type where
  title : JValue
  url : Option JValue

/-- One source entry through the final `.map`; member access on `null`
throws in JavaScript, which the outer catch would turn into an error
response. -/
def mapSource (s : JValue) : Except String SourceOut :=
  match s with
  | .null => .error "TypeError: cannot read properties of null"
  | v =>
    .ok { title :=
            match jget v "title" with
            | some t => if jsTruthy t then t else .str "source"
            | none => .str "source"
          url := jget v "url" }

/-- An evidence record as the plain object the handler holds it as. -/
def evidenceToJ (e : Evidence) : JValue :=
  .obj [("title", .str e.title), ("url", .str e.url), ("snippet", .str e.snippet)]

/-- The numeric repairs of the guardrails, exactly lines 175-186 of the
handler: the truthiness-guarded band swap, midpoint fill and clamp. -/
def repairNums (low0 high0 sug0 : Option ℤ) :
    Option ℤ × Option ℤ × Option ℤ :=
  let p : Option ℤ × Option ℤ :=
    match low0, high0 with
    | some a, some b => if a ≠ 0 ∧ b ≠ 0 ∧ b < a then (some b, some a) else (some a, some b)
    | _, _ => (low0, high0)
  let low1 := p.1
  let high1 := p.2
  let sug1 : Option ℤ :=
    if ¬ truthyN sug0 = true ∧ truthyN low1 = true ∧ truthyN high1 = true then
      match low1, high1 with
      | some a, some b => some (jsRound (Rat.divInt (a + b) 2))
      | _, _ => sug0
    else sug0
  let sug2 : Option ℤ :=
    if truthyN sug1 = true ∧ truthyN low1 = true ∧ truthyN high1 = true then
      match sug1, low1, high1 with
      | some s, some a, some b => some (clampJS s a b)
      | _, _, _ => sug1
    else sug1
  (low1, high1, sug2)

/-- The default rationale string of the handler. -/
def defaultWhy : JValue :=
  .str "Estimated from brand/model category and web signals."

/-- Model of `(r.confidence || "medium").toLowerCase()`: a falsy field defaults, a
truthy string is lowercased, and a truthy non-string has no `toLowerCase`
and throws. -/
def confOf (r : JValue) : Except String String :=
  match jget r "confidence" with
  | none => .ok "medium"
  | some v =>
    if jsTruthy v then
      match v with
      | .str s => .ok (jsToLower s)
      | _ => .error "TypeError: toLowerCase is not a function"
    else .ok "medium"

/-- Model of `r.why || "Estimated from brand/model category and web signals."`. -/
def whyOf (r : JValue) : JValue :=
  match jget r "why" with
  | none => defaultWhy
  | some v => if jsTruthy v then v else defaultWhy

/-- Model of `(r.sources || web.results || [])`: a truthy sources field must behave
as an array for the following `.slice(0, 6).map`, a truthy non-array
throws, and a falsy field falls back to the gathered web results. -/
def sourcesIn (r : JValue) (webResults : List Evidence) :
    Except String (List JValue) :=
  match jget r "sources" with
  | none => .ok (webResults.map evidenceToJ)
  | some v =>
    if jsTruthy v then
      match v with
      | .arr l => .ok l
      | _ => .error "TypeError: slice is not a function"
    else .ok (webResults.map evidenceToJ)

/-- The `.map` over source entries, with a thrown `TypeError` escaping. -/
def mapSources : List JValue → Except String (List SourceOut)
  | [] => .ok []
  | s :: rest =>
    match mapSource s with
    | .error e => .error e
    | .ok o =>
      match mapSources rest with
      | .error e => .error e
      | .ok l => .ok (o :: l)

/-- The emitted sources: cap at 6 then map each entry. -/
def sourcesOf (r : JValue) (webResults : List Evidence) :
    Except String (List SourceOut) :=
  match sourcesIn r webResults with
  | .error e => .error e
  | .ok l => mapSources (l.take 6)

/-- Model of `(toN(r?.old_vs_new?.launch_mrp), toN(r?.old_vs_new?.typical_used))`. -/
def oldVsNewOf (r : JValue) : Option ℤ × Option ℤ :=
  (toN ((jget r "old_vs_new").bind (fun o => jget o "launch_mrp")),
   toN ((jget r "old_vs_new").bind (fun o => jget o "typical_used")))

/-- The reconciled record built by the web handler's guardrails. -/
structure Advice : Type where
  low : Option ℤ
  high : Option ℤ
  sug : Option ℤ
  confidence : String
  why : JValue
  launch_mrp : Option ℤ
  typical_used : Option ℤ
  sources : List SourceOut

/-- The guardrails of the canonical web handler (price-advisor-web.js,
first handler, step 5): `toN` each price field, run the numeric repairs,
then build the final record with `x || null` on the three prices, the
confidence and why defaults, `old_vs_new` projections, and the capped
sources list. A thrown `TypeError` surfaces as an error. -/
def guardrails (r : JValue) (webResults : List Evidence) :
    Except String Advice :=
  let n := repairNums (toN (jget r "market_price_low"))
                      (toN (jget r "market_price_high"))
                      (toN (jget r "suggested_price"))
  match confOf r with
  | .error e => .error e
  | .ok conf =>
    match sourcesOf r webResults with
    | .error e => .error e
    | .ok srcs =>
      .ok { low := orNull n.1
            high := orNull n.2.1
            sug := orNull n.2.2
            confidence := conf
            why := whyOf r
            launch_mrp := (oldVsNewOf r).1
            typical_used := (oldVsNewOf r).2
            sources := srcs }

/-- The web handler from the model reply onward: parse the reply text
(`askOpenAI`), take `ans.result || (empty object)`, run the guardrails. -/
def webHandlerResult (txt : String) (webResults : List Evidence) :
    Except String Advice :=
  let p := webParse txt
  let r := if jsTruthy p then p else .obj []
  guardrails r webResults

/-- The full web pipeline: evidence gathering (whose fetch rejections
escape), then reply parsing and guardrails. -/
def webPipeline (tavilyKey : String) (f1 f2 : Except String FetchResp)
    (llmText : String) : Except String Advice :=
  match gatherEvidence tavilyKey f1 f2 with
  | .error e => .error e
  | .ok web => webHandlerResult llmText web.results

/-- Success/result projection of a handler outcome. -/
def advOf : Except String Advice → Option Advice
  | .ok a => some a
  | .error _ => none

/-- Projection: the emitted `market_price_low`. -/
def advLowOf (e : Except String Advice) : Option (Option ℤ) :=
  (advOf e).map Advice.low

/-- Projection: the emitted `market_price_high`. -/
def advHighOf (e : Except String Advice) : Option (Option ℤ) :=
  (advOf e).map Advice.high

/-- Projection: the emitted `suggested_price`. -/
def advSugOf (e : Except String Advice) : Option (Option ℤ) :=
  (advOf e).map Advice.sug

/-- Projection: the emitted `confidence`. -/
def advConfOf (e : Except String Advice) : Option String :=
  (advOf e).map Advice.confidence

/-- Projection: the emitted `why` when it is a string. -/
def advWhyStrOf (e : Except String Advice) : Option (Option String) :=
  (advOf e).map (fun a =>
    match a.why with
    | .str s => some s
    | _ => none)

/-- Projection: the number of emitted sources. -/
def advSrcLenOf (e : Except String Advice) : Option Nat :=
  (advOf e).map (fun a => a.sources.length)

/-- The band invariant claimed for emitted records: positive numeric low,
ordered band, suggested price inside it. -/
def bandOk (a : Advice) : Bool :=
  match a.low, a.high, a.sug with
  | some l, some h, some s =>
    decide (0 < l) && decide (l ≤ h) && decide (l ≤ s) && decide (s ≤ h)
  | _, _, _ => false

/-- Projection: `bandOk` of a handler outcome. -/
def advBandOkOf (e : Except String Advice) : Option Bool :=
  (advOf e).map bandOk

/-- A Responses-API payload as built by `buildPayload` of the retry
variant: fixed model and token cap, and the optional web-search tool
block. -/
structure GPayload : Type where
  model : String
  maxOutputTokens : Nat
  tools : Option (List String)
  toolChoice : Option String
deriving DecidableEq

/-- Model of `buildPayload`: the web-search tool and
`tool_choice: "auto"` are attached only when requested. -/
def buildPayload (withWebSearch : Bool) : GPayload :=
  if withWebSearch then
    { model := "gpt-4o-mini", maxOutputTokens := 900
      tools := some ["web_search"], toolChoice := some "auto" }
  else
    { model := "gpt-4o-mini", maxOutputTokens := 900
      tools := none, toolChoice := none }

/-- One provider response: HTTP success flag and parsed JSON body. -/
structure ProviderResp : Type where
  ok : Bool
  data : JValue

/-- Model of `data?.error?.message || JSON.stringify(data)`: the error message when
present and truthy (regex `test` sees its string form), else the
serialized body. -/
def errMsgOf (data : JValue) : String :=
  match (jget data "error").bind (fun e => jget e "message") with
  | some (.str s) => if s ≠ "" then s else jsonStringify data
  | some v => if jsTruthy v then jsonStringify v else jsonStringify data
  | none => jsonStringify data

/-- The case-insensitive unsupported-tool pattern
`/web[_-]?search|tool|unsupported|not enabled|Unknown tool/i`. -/
def toolUnsupportedPattern (s : String) : Bool :=
  let l := jsToLower s
  containsSub "web_search" l || containsSub "web-search" l ||
    containsSub "websearch" l || containsSub "tool" l ||
    containsSub "unsupported" l || containsSub "not enabled" l

/-- Trace of the generation client: the payloads sent in order, the
response the rest of the handler sees, and the `used_web_search` flag of
the emitted `_meta`. -/
structure GenTrace : Type where
  payloads : List GPayload
  finalResp : ProviderResp
  usedWebSearch : Bool

/-- The retry policy of the Responses-API variant: call with the web-search
tool, and when that failed with a message matching the unsupported-tool
pattern, call exactly once more without tools; `first`/`second` are the
provider's replies to the respective calls. -/
def genHandlerCalls (first second : ProviderResp) : GenTrace :=
  let toolUnsupported := (!first.ok) && toolUnsupportedPattern (errMsgOf first.data)
  if toolUnsupported then
    { payloads := [buildPayload true, buildPayload false]
      finalResp := second
      usedWebSearch := false }
  else
    { payloads := [buildPayload true]
      finalResp := first
      usedWebSearch := true }

/-- The source entry produced for a back-filled evidence record. -/
def srcOfEvidence (e : Evidence) : SourceOut :=
  { title := if e.title = "" then .str "source" else .str e.title
    url := some (.str e.url) }

/-! ### Concrete inputs used by the claim theorems -/

/-- Raw provider result with an all-negative band (C1 counterexample). -/
def rC1bad : JValue :=
  .obj [("market_price_low", .num (-100)), ("market_price_high", .num (-50)),
        ("suggested_price", .num (-75))]

/-- Concrete input for the C1 witness. -/
def rC1w : JValue :=
  .obj [("market_price_low", .num 8000), ("market_price_high", .num 12000),
        ("suggested_price", .num 50)]

/-- The record the guardrails emit on `rC1w` (the low suggested price is
clamped up to the band). -/
def advC1w : Advice :=
  { low := some 8000, high := some 12000, sug := some 8000
    confidence := "medium", why := defaultWhy
    launch_mrp := none, typical_used := none, sources := [] }

/-- Band without a suggested price (C3). -/
def rC3bad : JValue :=
  .obj [("market_price_low", .num 10000), ("market_price_high", .num 20000)]

/-- The record the guardrails emit on `rC3bad`. -/
def advC3w : Advice :=
  { low := some 10000, high := some 20000, sug := some 15000
    confidence := "medium", why := defaultWhy
    launch_mrp := none, typical_used := none, sources := [] }

/-- Provider responses for the C4 witness: a failure whose message matches
the unsupported-tool pattern, and a success. -/
def respTool : ProviderResp :=
  ⟨false, .obj [("error", .obj [("message", .str "Unknown tool: web_search")])]⟩

/-- A successful provider response (C4 witness). -/
def respOk2 : ProviderResp := ⟨true, .null⟩

/-- Confidence outside the enumeration (C6 counterexample). -/
def rC6bad : JValue := .obj [("confidence", .str "certainly")]

/-- Uppercase valid confidence (C6 witness). -/
def rC6w : JValue := .obj [("confidence", .str "HIGH")]

/-- The record the guardrails emit on `rC6w`. -/
def advC6w : Advice :=
  { low := none, high := none, sug := none
    confidence := "high", why := defaultWhy
    launch_mrp := none, typical_used := none, sources := [] }

/-- Provider result with an explicitly empty sources array (C7). -/
def rC7bad : JValue := .obj [("sources", .arr [])]

/-- A gathered evidence record (C7). -/
def evC7 : Evidence := ⟨"t1", "http://a", "s1"⟩

/-- Provider result without a sources field (C7 witness). -/
def rC7w : JValue := .obj []

/-- The record the guardrails emit on `rC7w` with evidence `[evC7]`. -/
def advC7w : Advice :=
  { low := none, high := none, sug := none
    confidence := "medium", why := defaultWhy
    launch_mrp := none, typical_used := none
    sources := [srcOfEvidence evC7] }

/-- Evidence items sharing a url across two query results (C8). -/
def evA : Evidence := ⟨"t1", "u1", "s1"⟩

/-- Same url as `evA`, different title (C8). -/
def evB : Evidence := ⟨"t2", "u1", "s2"⟩

/-- A distinct url (C8). -/
def evC : Evidence := ⟨"t3", "u3", "s3"⟩

/-- Numeric low exceeding a zero high (C9 counterexample). -/
def rC9bad : JValue :=
  .obj [("market_price_low", .num 5), ("market_price_high", .num 0)]

/-- The spec's inverted-band example (C9 witness). -/
def rC9w : JValue :=
  .obj [("market_price_low", .num 50000), ("market_price_high", .num 20000)]

/-- The record the guardrails emit on `rC9w`. -/
def advC9w : Advice :=
  { low := some 20000, high := some 50000, sug := some 35000
    confidence := "medium", why := defaultWhy
    launch_mrp := none, typical_used := none, sources := [] }

/-- Truthy band with a parsed suggested price of 0 (C10 counterexample). -/
def rC10bad : JValue :=
  .obj [("market_price_low", .num 10000), ("market_price_high", .num 20000),
        ("suggested_price", .num 0)]

/-- Zero low with a truthy high (C10 witness). -/
def rC10w : JValue :=
  .obj [("market_price_low", .num 0), ("market_price_high", .num 7),
        ("suggested_price", .num 0)]

/-- The record the guardrails emit on `rC10w`. -/
def advC10w : Advice :=
  { low := none, high := some 7, sug := none
    confidence := "medium", why := defaultWhy
    launch_mrp := none, typical_used := none, sources := [] }

/-! ### Helper lemmas about the numeric repairs -/

/-- The rounding model equals the floor of `q + 1/2`. -/
theorem jsRound_eq (q : ℚ) : jsRound q = ⌊q + 1 / 2⌋ := by
  have hden : ((q.den : ℚ)) ≠ 0 := by
    exact_mod_cast q.den_nz
  have hmul : q * ((q.den : ℚ)) = (q.num : ℚ) := by
    nth_rewrite 1 [← Rat.num_div_den q]
    exact div_mul_cancel₀ _ hden
  have hd2 : ((2 * q.den : ℕ) : ℚ) ≠ 0 := by
    exact_mod_cast Nat.mul_ne_zero two_ne_zero q.den_nz
  have hq : q + 1 / 2 = ((2 * q.num + (q.den : ℤ) : ℤ) : ℚ) / ((2 * q.den : ℕ) : ℚ) := by
    rw [eq_div_iff hd2]
    push_cast
    linear_combination 2 * hmul
  rw [jsRound, hq, Rat.floor_intCast_div_natCast]
  push_cast
  rfl

/-- The midpoint fill lands inside an ordered band. -/
theorem jsRound_mid_bounds (l h : ℤ) (hlh : l ≤ h) :
    l ≤ jsRound (Rat.divInt (l + h) 2) ∧ jsRound (Rat.divInt (l + h) 2) ≤ h := by
  have hc : (l : ℚ) ≤ (h : ℚ) := by exact_mod_cast hlh
  have hd : Rat.divInt (l + h) 2 = ((l : ℚ) + (h : ℚ)) / 2 := by
    rw [Rat.divInt_eq_div]
    push_cast
    ring
  rw [hd, jsRound_eq]
  constructor
  · rw [Int.le_floor]
    linarith
  · have h2 : ((l : ℚ) + (h : ℚ)) / 2 + 1 / 2 < ((h + 1 : ℤ) : ℚ) := by
      push_cast
      linarith
    have h3 := Int.floor_lt.mpr h2
    omega

/-- The sequential clamp lands inside an ordered band. -/
theorem clampJS_bounds (s a b : ℤ) (hab : a ≤ b) :
    a ≤ clampJS s a b ∧ clampJS s a b ≤ b := by
  simp only [clampJS]
  split_ifs <;> omega

/-- The clamp is the identity on values already in the band. -/
theorem clampJS_of_between (s a b : ℤ) (h1 : a ≤ s) (h2 : s ≤ b) :
    clampJS s a b = s := by
  simp only [clampJS]
  split_ifs <;> omega

/-- Emission via `x || null` keeps a nonzero value. -/
theorem orNull_of_ne (n : ℤ) (h : n ≠ 0) : orNull (some n) = some n := by
  simp [orNull, h]

/-- With a falsy low or high slot, all three numeric repairs are skipped. -/
theorem repairNums_skip (low0 high0 sug0 : Option ℤ)
    (h : truthyN low0 = false ∨ truthyN high0 = false) :
    repairNums low0 high0 sug0 = (low0, high0, sug0) := by
  rcases low0 with _ | a
  · rcases high0 with _ | b <;> simp_all [repairNums, truthyN]
  · rcases high0 with _ | b
    · simp_all [repairNums, truthyN]
    · rcases h with h | h <;> simp_all [repairNums, truthyN]

/-- Band components after the swap, for truthy low and high. -/
theorem repairNums_band (a b : ℤ) (s0 : Option ℤ) (ha : a ≠ 0) (hb : b ≠ 0) :
    (repairNums (some a) (some b) s0).1 = some (if b < a then b else a)
    ∧ (repairNums (some a) (some b) s0).2.1 = some (if b < a then a else b) := by
  by_cases hba : b < a <;> simp [repairNums, ha, hb, hba]

/-- With truthy low and high and a falsy suggested slot, the suggested price
becomes the rounded band midpoint. -/
theorem repairNums_fill (a b : ℤ) (s0 : Option ℤ) (ha : a ≠ 0) (hb : b ≠ 0)
    (hs : truthyN s0 = false) :
    (repairNums (some a) (some b) s0).2.2 = some (jsRound (Rat.divInt (a + b) 2)) := by
  have hcases : s0 = none ∨ s0 = some 0 := by
    rcases s0 with _ | s
    · exact Or.inl rfl
    · have hz : s = 0 := by simpa [truthyN] using hs
      exact Or.inr (by rw [hz])
  by_cases hba : b < a
  · have hmid := jsRound_mid_bounds b a (le_of_lt hba)
    have hcomm : Rat.divInt (b + a) 2 = Rat.divInt (a + b) 2 := by
      rw [Int.add_comm]
    rw [hcomm] at hmid
    rcases hcases with h0 | h0 <;> subst h0 <;>
      by_cases hm0 : jsRound (Rat.divInt (a + b) 2) = 0
    · simp [repairNums, ha, hb, hba, truthyN, hcomm, hm0]
    · simp [repairNums, ha, hb, hba, truthyN, hcomm, hm0,
        clampJS_of_between _ b a hmid.1 hmid.2]
    · simp [repairNums, ha, hb, hba, truthyN, hcomm, hm0]
    · simp [repairNums, ha, hb, hba, truthyN, hcomm, hm0,
        clampJS_of_between _ b a hmid.1 hmid.2]
  · have hab : a ≤ b := le_of_not_lt hba
    have hmid := jsRound_mid_bounds a b hab
    rcases hcases with h0 | h0 <;> subst h0 <;>
      by_cases hm0 : jsRound (Rat.divInt (a + b) 2) = 0
    · simp [repairNums, ha, hb, hba, truthyN, hm0]
    · simp [repairNums, ha, hb, hba, truthyN, hm0,
        clampJS_of_between _ a b hmid.1 hmid.2]
    · simp [repairNums, ha, hb, hba, truthyN, hm0]
    · simp [repairNums, ha, hb, hba, truthyN, hm0,
        clampJS_of_between _ a b hmid.1 hmid.2]

/-- With positive low and high, the repaired record is a positive ordered
band with the suggested price inside it. -/
theorem repairNums_pos (a b : ℤ) (s0 : Option ℤ) (ha : 0 < a) (hb : 0 < b) :
    ∃ l h s, repairNums (some a) (some b) s0 = (some l, some h, some s)
      ∧ 0 < l ∧ l ≤ h ∧ l ≤ s ∧ s ≤ h := by
  have ha' : a ≠ 0 := ha.ne'
  have hb' : b ≠ 0 := hb.ne'
  obtain ⟨h1, h2⟩ := repairNums_band a b s0 ha' hb'
  by_cases hts : truthyN s0 = true
  · rcases s0 with _ | s
    · simp [truthyN] at hts
    · have hs' : s ≠ 0 := by simpa [truthyN] using hts
      by_cases hba : b < a
      · refine ⟨b, a, clampJS s b a, ?_, hb, le_of_lt hba, ?_, ?_⟩
        · simp [repairNums, ha', hb', hba, truthyN, hs']
        · exact (clampJS_bounds s b a (le_of_lt hba)).1
        · exact (clampJS_bounds s b a (le_of_lt hba)).2
      · have hab : a ≤ b := le_of_not_lt hba
        refine ⟨a, b, clampJS s a b, ?_, ha, hab, ?_, ?_⟩
        · simp [repairNums, ha', hb', hba, truthyN, hs']
        · exact (clampJS_bounds s a b hab).1
        · exact (clampJS_bounds s a b hab).2
  · have hts' : truthyN s0 = false := by simpa using hts
    have h3 := repairNums_fill a b s0 ha' hb' hts'
    by_cases hba : b < a
    · have hmid := jsRound_mid_bounds b a (le_of_lt hba)
      have hcomm : Rat.divInt (b + a) 2 = Rat.divInt (a + b) 2 := by
        rw [Int.add_comm]
      rw [hcomm] at hmid
      refine ⟨b, a, jsRound (Rat.divInt (a + b) 2), ?_, hb, le_of_lt hba, hmid.1, hmid.2⟩
      have hif : (if b < a then b else a) = b := by simp [hba]
      have hif2 : (if b < a then a else b) = a := by simp [hba]
      rw [hif] at h1
      rw [hif2] at h2
      exact Prod.ext h1 (Prod.ext h2 h3)
    · have hab : a ≤ b := le_of_not_lt hba
      have hmid := jsRound_mid_bounds a b hab
      refine ⟨a, b, jsRound (Rat.divInt (a + b) 2), ?_, ha, hab, hmid.1, hmid.2⟩
      have hif : (if b < a then b else a) = a := by simp [hba]
      have hif2 : (if b < a then a else b) = b := by simp [hba]
      rw [hif] at h1
      rw [hif2] at h2
      exact Prod.ext h1 (Prod.ext h2 h3)

/-- Shape of a successful guardrails run: each emitted field in terms of
the repair pipeline. -/
theorem guardrails_fields (r : JValue) (w : List Evidence) (adv : Advice)
    (h : guardrails r w = .ok adv) :
    adv.low = orNull (repairNums (toN (jget r "market_price_low"))
        (toN (jget r "market_price_high")) (toN (jget r "suggested_price"))).1
    ∧ adv.high = orNull (repairNums (toN (jget r "market_price_low"))
        (toN (jget r "market_price_high")) (toN (jget r "suggested_price"))).2.1
    ∧ adv.sug = orNull (repairNums (toN (jget r "market_price_low"))
        (toN (jget r "market_price_high")) (toN (jget r "suggested_price"))).2.2
    ∧ confOf r = .ok adv.confidence
    ∧ sourcesOf r w = .ok adv.sources
    ∧ adv.why = whyOf r := by
  unfold guardrails at h
  cases hc : confOf r with
  | error e => rw [hc] at h; exact absurd h (by simp)
  | ok conf =>
    rw [hc] at h
    cases hs : sourcesOf r w with
    | error e => rw [hs] at h; exact absurd h (by simp)
    | ok srcs =>
      rw [hs] at h
      simp only [Except.ok.injEq] at h
      subst h
      exact ⟨rfl, rfl, rfl, rfl, rfl, rfl⟩

/-! ### Claim C1 -/

/-- Claim C1, counterexample: the guardrails pass a fully negative parsed
band straight through, so the emitted record violates
`market_price_low > 0`; the claimed invariant does not hold of every
processed provider result. -/
theorem C1_counterexample :
    advLowOf (guardrails rC1bad []) = some (some (-100))
    ∧ advHighOf (guardrails rC1bad []) = some (some (-50))
    ∧ advSugOf (guardrails rC1bad []) = some (some (-75))
    ∧ advBandOkOf (guardrails rC1bad []) = some false := by
  refine ⟨?_, ?_, ?_, ?_⟩ <;> decide

/-- Claim C1 (amended): whenever the parsed `market_price_low` and
`market_price_high` are both positive, the emitted record satisfies
`0 < low`, `low ≤ high` and `low ≤ suggested ≤ high`, all fields
non-null. -/
theorem C1_band_invariant (r : JValue) (w : List Evidence) (a b : ℤ) (adv : Advice)
    (hl : toN (jget r "market_price_low") = some a) (ha : 0 < a)
    (hh : toN (jget r "market_price_high") = some b) (hb : 0 < b)
    (hok : guardrails r w = .ok adv) :
    bandOk adv = true := by
  obtain ⟨h1, h2, h3, -, -, -⟩ := guardrails_fields r w adv hok
  rw [hl, hh] at h1 h2 h3
  obtain ⟨l, h, s, heq, hl0, hlh, hls, hsh⟩ :=
    repairNums_pos a b (toN (jget r "suggested_price")) ha hb
  rw [heq] at h1 h2 h3
  dsimp only at h1 h2 h3
  have hlz : l ≠ 0 := hl0.ne'
  have hhz : h ≠ 0 := by omega
  have hsz : s ≠ 0 := by omega
  rw [orNull_of_ne l hlz] at h1
  rw [orNull_of_ne h hhz] at h2
  rw [orNull_of_ne s hsz] at h3
  simp [bandOk, h1, h2, h3, hl0, hlh, hls, hsh]

/-- Witness for C1 at a concrete input. -/
theorem C1_band_invariant_witness : bandOk advC1w = true :=
  C1_band_invariant rC1w [] 8000 12000 advC1w (by decide) (by decide)
    (by decide) (by decide) rfl

/-! ### Claim C9 -/

/-- Claim C9, counterexample: with numeric low 5 exceeding numeric high 0,
the truthiness guard skips the swap; the emitted record keeps low 5 and
turns high into null, so the values are neither swapped nor preserved. -/
theorem C9_counterexample :
    advLowOf (guardrails rC9bad []) = some (some 5)
    ∧ advHighOf (guardrails rC9bad []) = some none := by
  constructor <;> decide

/-- Claim C9 (amended): whenever the parsed low and high are both nonzero
and low exceeds high, the guardrails swap them and both original values are
preserved in the emitted record. -/
theorem C9_band_swap (r : JValue) (w : List Evidence) (a b : ℤ) (adv : Advice)
    (hl : toN (jget r "market_price_low") = some a) (ha : a ≠ 0)
    (hh : toN (jget r "market_price_high") = some b) (hb : b ≠ 0)
    (hba : b < a)
    (hok : guardrails r w = .ok adv) :
    adv.low = some b ∧ adv.high = some a := by
  obtain ⟨h1, h2, -, -, -, -⟩ := guardrails_fields r w adv hok
  rw [hl, hh] at h1 h2
  obtain ⟨hb1, hb2⟩ := repairNums_band a b (toN (jget r "suggested_price")) ha hb
  rw [if_pos hba] at hb1
  rw [if_pos hba] at hb2
  rw [hb1, orNull_of_ne b hb] at h1
  rw [hb2, orNull_of_ne a ha] at h2
  exact ⟨h1, h2⟩

/-- Witness for C9 at the spec's own example band 50000/20000. -/
theorem C9_band_swap_witness :
    advC9w.low = some 20000 ∧ advC9w.high = some 50000 :=
  C9_band_swap rC9w [] 50000 20000 advC9w (by decide) (by decide)
    (by decide) (by decide) (by decide) rfl

/-! ### Claim C3 -/

/-- Claim C3, counterexample: with band 10000..20000 and no suggested
price, the guardrails fill the plain midpoint 15000, not the
upper-weighted `round(low*0.4 + high*0.6)` = `round((2*low + 3*high)/5)`
= 16000 the claim states. -/
theorem C3_counterexample :
    advSugOf (guardrails rC3bad []) = some (some 15000)
    ∧ jsRound (Rat.divInt (2 * 10000 + 3 * 20000) 5) = 16000
    ∧ (15000 : ℤ) ≠ 16000 := by
  refine ⟨?_, ?_, ?_⟩ <;> decide

/-- Claim C3 (amended): with nonzero parsed low and high and a missing or
non-numeric suggested price, the guardrails fill `round((low + high) / 2)`,
the plain band midpoint, which lies inside the band (and is emitted as null
only if that midpoint is itself 0). -/
theorem C3_midpoint_fill (r : JValue) (w : List Evidence) (a b : ℤ) (adv : Advice)
    (hl : toN (jget r "market_price_low") = some a) (ha : a ≠ 0)
    (hh : toN (jget r "market_price_high") = some b) (hb : b ≠ 0)
    (hs : toN (jget r "suggested_price") = none)
    (hok : guardrails r w = .ok adv) :
    adv.sug = orNull (some (jsRound (Rat.divInt (a + b) 2)))
    ∧ min a b ≤ jsRound (Rat.divInt (a + b) 2)
    ∧ jsRound (Rat.divInt (a + b) 2) ≤ max a b := by
  obtain ⟨-, -, h3, -, -, -⟩ := guardrails_fields r w adv hok
  rw [hl, hh, hs] at h3
  rw [repairNums_fill a b none ha hb (by simp [truthyN])] at h3
  refine ⟨h3, ?_, ?_⟩
  · rcases le_total a b with hab | hba
    · rw [min_eq_left hab]
      exact (jsRound_mid_bounds a b hab).1
    · have hm := jsRound_mid_bounds b a hba
      rw [Int.add_comm b a] at hm
      rw [min_eq_right hba]
      exact hm.1
  · rcases le_total a b with hab | hba
    · rw [max_eq_right hab]
      exact (jsRound_mid_bounds a b hab).2
    · have hm := jsRound_mid_bounds b a hba
      rw [Int.add_comm b a] at hm
      rw [max_eq_left hba]
      exact hm.2

/-- Witness for C3 at the spec's example band 10000/20000. -/
theorem C3_midpoint_fill_witness :
    advC3w.sug = orNull (some (jsRound (Rat.divInt (10000 + 20000) 2)))
    ∧ min (10000 : ℤ) 20000 ≤ jsRound (Rat.divInt (10000 + 20000) 2)
    ∧ jsRound (Rat.divInt (10000 + 20000) 2) ≤ max (10000 : ℤ) 20000 :=
  C3_midpoint_fill rC3bad [] 10000 20000 advC3w (by decide) (by decide)
    (by decide) (by decide) (by decide) rfl

/-! ### Claim C10 -/

/-- Claim C10, counterexample: a parsed suggested_price of 0 alongside a
truthy band is not emitted as null with the repairs skipped — the midpoint
fill runs and emits 15000. -/
theorem C10_counterexample :
    toN (jget rC10bad "suggested_price") = some 0
    ∧ advSugOf (guardrails rC10bad []) = some (some 15000) := by
  constructor <;> decide

/-- Claim C10 (amended): every repair guard uses JS truthiness, so 0 and
null behave alike, but per guard: a parsed 0 for low or high is emitted as
null; a falsy low or high skips all three repairs, each price then emitted
by `x || null`; and a falsy suggested price with truthy low and high
triggers the midpoint fill instead of being skipped. -/
theorem C10_truthiness_guards (r : JValue) (w : List Evidence) (adv : Advice)
    (hok : guardrails r w = .ok adv) :
    (toN (jget r "market_price_low") = some 0 → adv.low = none)
    ∧ (toN (jget r "market_price_high") = some 0 → adv.high = none)
    ∧ (truthyN (toN (jget r "market_price_low")) = false
        ∨ truthyN (toN (jget r "market_price_high")) = false →
        adv.low = orNull (toN (jget r "market_price_low"))
        ∧ adv.high = orNull (toN (jget r "market_price_high"))
        ∧ adv.sug = orNull (toN (jget r "suggested_price")))
    ∧ (∀ a b : ℤ, toN (jget r "market_price_low") = some a → a ≠ 0 →
        toN (jget r "market_price_high") = some b → b ≠ 0 →
        truthyN (toN (jget r "suggested_price")) = false →
        adv.sug = orNull (some (jsRound (Rat.divInt (a + b) 2)))) := by
  obtain ⟨h1, h2, h3, -, -, -⟩ := guardrails_fields r w adv hok
  refine ⟨?_, ?_, ?_, ?_⟩
  · intro hz
    rw [hz] at h1
    rw [repairNums_skip _ _ _ (Or.inl (by simp [truthyN]))] at h1
    simpa [orNull] using h1
  · intro hz
    rw [hz] at h2
    rw [repairNums_skip _ _ _ (Or.inr (by simp [truthyN]))] at h2
    simpa [orNull] using h2
  · intro hfalsy
    rw [repairNums_skip _ _ _ hfalsy] at h1 h2 h3
    exact ⟨h1, h2, h3⟩
  · intro a b hla hane hhb hbne hsf
    rw [hla, hhb] at h3
    rw [repairNums_fill a b _ hane hbne hsf] at h3
    exact h3

/-- Witness for C10: a zero low disables the swap and the fill; the zero
low and suggested price are emitted as null and the high passes through. -/
theorem C10_truthiness_guards_witness :
    advC10w.low = none ∧ advC10w.high = some 7 ∧ advC10w.sug = none := by
  have h := C10_truthiness_guards rC10w [] advC10w rfl
  have h3 := h.2.2.1 (Or.inl (by decide))
  refine ⟨h.1 (by decide), ?_, ?_⟩
  · rw [h3.2.1]
    decide
  · rw [h3.2.2]
    decide

/-! ### Claim C6 -/

/-- Claim C6, counterexample: a truthy confidence outside the enumeration
is not replaced by "medium" — the guardrails emit it lowercased as-is. -/
theorem C6_counterexample :
    advConfOf (guardrails rC6bad []) = some "certainly" := by decide

/-- Claim C6 (amended): the emitted confidence is the lowercased provider
string whenever the field is a non-empty string — whether or not it is a
member of the low/medium/high enumeration — and defaults to "medium" only
when the field is missing, null or empty (falsy). -/
theorem C6_confidence (r : JValue) (w : List Evidence) (adv : Advice)
    (hok : guardrails r w = .ok adv) :
    (∀ s : String, jget r "confidence" = some (.str s) →
      adv.confidence = if s = "" then "medium" else jsToLower s)
    ∧ (jget r "confidence" = none → adv.confidence = "medium")
    ∧ (jget r "confidence" = some .null → adv.confidence = "medium") := by
  obtain ⟨-, -, -, hc, -, -⟩ := guardrails_fields r w adv hok
  unfold confOf at hc
  refine ⟨?_, ?_, ?_⟩
  · intro s hs
    rw [hs] at hc
    by_cases hse : s = ""
    · subst hse
      simp [jsTruthy] at hc
      simp [hc]
    · simp [jsTruthy, hse] at hc
      simp [hse, hc]
  · intro hn
    rw [hn] at hc
    simp at hc
    exact hc.symm
  · intro hn
    rw [hn] at hc
    simp [jsTruthy] at hc
    exact hc.symm

/-- Witness for C6: the valid uppercase confidence "HIGH" comes out
lowercased. -/
theorem C6_confidence_witness :
    advC6w.confidence
      = if ("HIGH" : String) = "" then "medium" else jsToLower "HIGH" :=
  (C6_confidence rC6w [] advC6w rfl).1 "HIGH" rfl

/-! ### Claim C7 -/

/-- Mapping a back-filled evidence object yields its source entry. -/
theorem mapSource_evidenceToJ (e : Evidence) :
    mapSource (evidenceToJ e) = .ok (srcOfEvidence e) := by
  by_cases ht : e.title = "" <;>
    simp [mapSource, evidenceToJ, jget, jgetFields, jsTruthy, srcOfEvidence, ht]

/-- Mapping a list of back-filled evidence objects never throws. -/
theorem mapSources_evidence (w : List Evidence) :
    mapSources (w.map evidenceToJ) = .ok (w.map srcOfEvidence) := by
  induction w with
  | nil => rfl
  | cons e es ih => simp [mapSources, mapSource_evidenceToJ, ih]

/-- A successful source mapping preserves length. -/
theorem mapSources_ok_length (l : List JValue) (outs : List SourceOut)
    (h : mapSources l = .ok outs) : outs.length = l.length := by
  induction l generalizing outs with
  | nil =>
    simp [mapSources] at h
    simp [← h]
  | cons s rest ih =>
    unfold mapSources at h
    cases hms : mapSource s with
    | error e => rw [hms] at h; exact absurd h (by simp)
    | ok o =>
      rw [hms] at h
      cases hr : mapSources rest with
      | error e => rw [hr] at h; exact absurd h (by simp)
      | ok l2 =>
        rw [hr] at h
        simp only [Except.ok.injEq] at h
        simp [← h, ih l2 hr]

/-- Claim C7, counterexample: an explicitly empty provider sources array is
truthy in JavaScript, so it is not back-filled from the gathered evidence —
the emitted list is empty although an evidence item exists. -/
theorem C7_counterexample :
    advSrcLenOf (guardrails rC7bad [evC7]) = some 0 := by decide

/-- Claim C7 (amended): the emitted sources list always has at most 6
entries, and the back-fill from gathered web evidence happens exactly when
the provider's sources field is missing or falsy — an explicitly empty
array is emitted as empty. -/
theorem C7_sources_cap (r : JValue) (w : List Evidence) (adv : Advice)
    (hok : guardrails r w = .ok adv) :
    adv.sources.length ≤ 6
    ∧ (jget r "sources" = none → adv.sources = (w.take 6).map srcOfEvidence)
    ∧ (∀ v, jget r "sources" = some v → jsTruthy v = false →
        adv.sources = (w.take 6).map srcOfEvidence) := by
  obtain ⟨-, -, -, -, hsrc, -⟩ := guardrails_fields r w adv hok
  unfold sourcesOf at hsrc
  refine ⟨?_, ?_, ?_⟩
  · cases hsi : sourcesIn r w with
    | error e => rw [hsi] at hsrc; exact absurd hsrc (by simp)
    | ok l =>
      rw [hsi] at hsrc
      have hlen := mapSources_ok_length _ _ hsrc
      rw [hlen, List.length_take]
      exact min_le_left _ _
  · intro hn
    have hsi : sourcesIn r w = .ok (w.map evidenceToJ) := by
      unfold sourcesIn
      rw [hn]
    rw [hsi] at hsrc
    dsimp only at hsrc
    rw [← List.map_take, mapSources_evidence] at hsrc
    simp only [Except.ok.injEq] at hsrc
    exact hsrc.symm
  · intro v hv hfalsy
    have hsi : sourcesIn r w = .ok (w.map evidenceToJ) := by
      unfold sourcesIn
      rw [hv]
      simp [hfalsy]
    rw [hsi] at hsrc
    dsimp only at hsrc
    rw [← List.map_take, mapSources_evidence] at hsrc
    simp only [Except.ok.injEq] at hsrc
    exact hsrc.symm

/-- Witness for C7: one evidence item and no provider sources field; the
emitted list is the back-fill and is within the cap. -/
theorem C7_sources_cap_witness :
    advC7w.sources.length ≤ 6
    ∧ advC7w.sources = ([evC7].take 6).map srcOfEvidence := by
  have h := C7_sources_cap rC7w [evC7] advC7w rfl
  exact ⟨h.1, h.2.1 rfl⟩

/-! ### Claim C5 -/

/-- Claim C5, counterexample: with a configured key, a rejected fetch
(network failure) is not caught inside `tavilySearch`: it propagates, and
the pipeline yields an error response instead of an empty evidence
degradation. -/
theorem C5_counterexample :
    tavilySearch "key1" (.error "network failure") = .error "network failure"
    ∧ webPipeline "key1" (.error "network failure") (.ok ⟨true, "x"⟩) "\x7b\x7d"
        = .error "network failure" := by
  constructor <;> rfl

/-- Claim C5 (amended): an absent credential, a non-success HTTP status, or
an unparseable body each degrade to the empty evidence sequence without
error; but a rejected fetch propagates out of `tavilySearch` as an
error. -/
theorem C5_evidence_degradation (key : String) (f : Except String FetchResp)
    (resp : FetchResp) (e : String) :
    (tavilySearch "" f = .ok ⟨[], false⟩)
    ∧ (key ≠ "" → resp.ok = false → tavilySearch key (.ok resp) = .ok ⟨[], true⟩)
    ∧ (key ≠ "" → resp.ok = true → jsonParse resp.body = none →
        tavilySearch key (.ok resp) = .ok ⟨[], true⟩)
    ∧ (key ≠ "" → tavilySearch key (.error e) = .error e) := by
  refine ⟨?_, ?_, ?_, ?_⟩
  · rfl
  · intro hk hr
    unfold tavilySearch
    simp [hk, hr]
  · intro hk hr hp
    unfold tavilySearch
    simp [hk, hr, hp, jget, jgetFields]
  · intro hk
    unfold tavilySearch
    simp [hk]

/-- Witness for C5 at concrete inputs: missing key, failed status, and a
rejected fetch. -/
theorem C5_evidence_degradation_witness :
    tavilySearch "" (.ok ⟨true, "x"⟩) = .ok ⟨[], false⟩
    ∧ tavilySearch "k" (.ok ⟨false, ""⟩) = .ok ⟨[], true⟩
    ∧ tavilySearch "k" (.error "boom") = .error "boom" := by
  have h := C5_evidence_degradation "k" (.ok ⟨true, "x"⟩) ⟨false, ""⟩ "boom"
  exact ⟨h.1, h.2.1 (by decide) rfl, h.2.2.2 (by decide)⟩

/-! ### Claim C4 -/

/-- Claim C4 (confirmed): the generation client of the Responses-API
variant issues the tool-enabled payload first and retries exactly once,
with the web-search tool disabled, if and only if the first call failed
with a message matching the unsupported-tool pattern; any other failure and
any success make exactly one call, so at most two provider calls are ever
made. -/
theorem C4_retry_policy (first second : ProviderResp) :
    (genHandlerCalls first second).payloads.length ≤ 2
    ∧ ((genHandlerCalls first second).payloads
        = [buildPayload true, buildPayload false]
        ↔ first.ok = false ∧ toolUnsupportedPattern (errMsgOf first.data) = true)
    ∧ (first.ok = true → (genHandlerCalls first second).payloads = [buildPayload true])
    ∧ ((genHandlerCalls first second).payloads = [buildPayload true]
        ∨ (genHandlerCalls first second).payloads
            = [buildPayload true, buildPayload false])
    ∧ (buildPayload false).tools = none
    ∧ (buildPayload true).tools = some ["web_search"] := by
  unfold genHandlerCalls
  by_cases h1 : first.ok <;>
    by_cases h2 : toolUnsupportedPattern (errMsgOf first.data) = true <;>
    simp [h1, h2, buildPayload]

/-- Witness for C4: an unsupported-tool failure triggers the single
tool-free retry; a success makes one call. -/
theorem C4_retry_policy_witness :
    (genHandlerCalls respTool respOk2).payloads
      = [buildPayload true, buildPayload false]
    ∧ (genHandlerCalls respOk2 respTool).payloads = [buildPayload true] := by
  have h1 := (C4_retry_policy respTool respOk2).2.1
  have h2 := (C4_retry_policy respOk2 respTool).2.2.1
  exact ⟨h1.mpr ⟨rfl, by decide⟩, h2 rfl⟩

/-! ### Claim C2 -/

/-- Claim C2, counterexample: the spec's own malformed reply, run through
the canonical web handler: the text cannot be parsed as JSON, yet the
outcome is not a ParseError — the handler emits a success record carrying
the raw text as the rationale, with every numeric price field null. -/
theorem C2_counterexample :
    (jsonParse "I cannot help with that.").isNone = true
    ∧ (fencedJson "I cannot help with that.").isNone = true
    ∧ (advOf (webHandlerResult "I cannot help with that." [])).isSome = true
    ∧ advLowOf (webHandlerResult "I cannot help with that." []) = some none
    ∧ advHighOf (webHandlerResult "I cannot help with that." []) = some none
    ∧ advSugOf (webHandlerResult "I cannot help with that." []) = some none
    ∧ advWhyStrOf (webHandlerResult "I cannot help with that." [])
        = some (some "I cannot help with that.") := by
  refine ⟨?_, ?_, ?_, ?_, ?_, ?_, ?_⟩ <;> decide

/-- Claim C2 (amended): an unparseable reply is a ParseError only in the
price-advisor-openai.js handlers — the plain variant rejects any reply that
does not parse to a truthy object-typed value and the coercing variant any
reply whose coerced text fails JSON.parse, both with "Failed to parse JSON
from model" — while the canonical web handler absorbs the text into the why
field and emits a success whose numeric price fields are all null; no
variant fabricates numeric prices from an unparseable reply. -/
theorem C2_parse_outcomes (raw : String) (w : List Evidence) :
    ((jsonParse raw).isNone = true → (openaiParseStage raw).isParseFailure = true)
    ∧ ((jsonParse (coerceJsonString raw)).isNone = true →
        (openaiCoerceStage raw).isParseFailure = true)
    ∧ ((jsonParse ((fencedJson raw).getD raw)).isNone = true →
        advLowOf (webHandlerResult raw w) = some none
        ∧ advHighOf (webHandlerResult raw w) = some none
        ∧ advSugOf (webHandlerResult raw w) = some none) := by
  refine ⟨?_, ?_, ?_⟩
  · intro hn
    rcases hjp : jsonParse raw with _ | v
    · unfold openaiParseStage
      rw [hjp]
      rfl
    · rw [hjp] at hn
      simp at hn
  · intro hn
    rcases hjp : jsonParse (coerceJsonString raw) with _ | v
    · unfold openaiCoerceStage
      rw [hjp]
      rfl
    · rw [hjp] at hn
      simp at hn
  · intro hn
    have hw : webParse raw = .obj [("why", .str raw)] := by
      unfold webParse
      dsimp only
      rcases hjp : jsonParse ((fencedJson raw).getD raw) with _ | v
      · rfl
      · rw [hjp] at hn
        simp at hn
    have hr : webHandlerResult raw w = guardrails (.obj [("why", .str raw)]) w := by
      unfold webHandlerResult
      rw [hw]
      rfl
    have hconf : confOf (.obj [("why", .str raw)]) = .ok "medium" := by
      unfold confOf
      simp [jget, jgetFields]
    have hsi : sourcesIn (.obj [("why", JValue.str raw)]) w
        = .ok (w.map evidenceToJ) := by
      unfold sourcesIn
      rw [show jget (JValue.obj [("why", JValue.str raw)]) "sources" = none from rfl]
    have hsrcs : sourcesOf (.obj [("why", .str raw)]) w
        = .ok ((w.take 6).map srcOfEvidence) := by
      unfold sourcesOf
      rw [hsi]
      dsimp only
      rw [← List.map_take, mapSources_evidence]
    have hg : guardrails (.obj [("why", .str raw)]) w
        = .ok { low := none, high := none, sug := none
                confidence := "medium", why := whyOf (.obj [("why", .str raw)])
                launch_mrp := none, typical_used := none
                sources := (w.take 6).map srcOfEvidence } := by
      unfold guardrails
      rw [hconf, hsrcs]
      rfl
    rw [hr, hg]
    refine ⟨rfl, rfl, rfl⟩

/-- Witness for C2 at the reply text "nope". -/
theorem C2_parse_outcomes_witness :
    (openaiParseStage "nope").isParseFailure = true
    ∧ (openaiCoerceStage "nope").isParseFailure = true
    ∧ advLowOf (webHandlerResult "nope" []) = some none := by
  have h := C2_parse_outcomes "nope" []
  exact ⟨h.1 (by decide), h.2.1 (by decide), (h.2.2 (by decide)).1⟩

/-! ### Claim C8 -/

/-- The merge fold restated with the seen url set explicit. -/
theorem mergeByUrl_eq_go (xs : List Evidence) : mergeByUrl xs = mergeGo [] xs := by
  have key : ∀ (ys : List Evidence) (acc : List Evidence),
      ys.foldl
        (fun acc x =>
          if x.url ≠ "" ∧ acc.all (fun y => y.url ≠ x.url) then acc ++ [x] else acc)
        acc
      = acc ++ mergeGo (acc.map Evidence.url) ys := by
    intro ys
    induction ys with
    | nil =>
      intro acc
      simp [mergeGo]
    | cons x xs ih =>
      intro acc
      have hcond : (acc.map Evidence.url).all (fun u => u ≠ x.url)
          = acc.all (fun y => y.url ≠ x.url) := by
        induction acc with
        | nil => rfl
        | cons a as iha =>
          simp only [List.map_cons, List.all_cons]
          rw [iha]
      simp only [List.foldl_cons]
      by_cases hc : x.url ≠ "" ∧ acc.all (fun y => y.url ≠ x.url) = true
      · rw [if_pos hc, ih (acc ++ [x])]
        have hc2 : x.url ≠ ""
            ∧ (acc.map Evidence.url).all (fun u => u ≠ x.url) = true := by
          exact ⟨hc.1, by rw [hcond]; exact hc.2⟩
        simp only [mergeGo]
        rw [if_pos hc2]
        simp
      · rw [if_neg hc, ih acc]
        have hc2 : ¬ (x.url ≠ ""
            ∧ (acc.map Evidence.url).all (fun u => u ≠ x.url) = true) := by
          rw [hcond]
          exact hc
        simp only [mergeGo]
        rw [if_neg hc2]
  have h0 := key xs []
  simpa [mergeByUrl] using h0

/-- The merged sequence is a subsequence of the input: first-seen order is
preserved. -/
theorem mergeGo_sublist (xs : List Evidence) :
    ∀ seen, List.Sublist (mergeGo seen xs) xs := by
  induction xs with
  | nil =>
    intro seen
    simp [mergeGo]
  | cons x xs ih =>
    intro seen
    by_cases hc : x.url ≠ "" ∧ seen.all (fun u => u ≠ x.url) = true
    · simp only [mergeGo]
      rw [if_pos hc]
      exact (ih _).cons₂ x
    · simp only [mergeGo]
      rw [if_neg hc]
      exact (ih seen).cons x

/-- Invariants of the seen-set merge: kept urls avoid the seen set and are
pairwise distinct, a url appears in the output iff it appears in the input
and not in the seen set, and every kept item is the first input item with
its url. -/
theorem mergeGo_props (xs : List Evidence) : ∀ seen : List String,
    (∀ x ∈ xs, x.url ≠ "") →
    (∀ y ∈ mergeGo seen xs, y.url ∉ seen)
    ∧ ((mergeGo seen xs).map Evidence.url).Nodup
    ∧ (∀ u, u ∈ (mergeGo seen xs).map Evidence.url
        ↔ (u ∉ seen ∧ u ∈ xs.map Evidence.url))
    ∧ (∀ y ∈ mergeGo seen xs, xs.find? (fun z => z.url == y.url) = some y) := by
  induction xs with
  | nil =>
    intro seen h
    simp [mergeGo]
  | cons x xs ih =>
    intro seen h
    have hx : x.url ≠ "" := h x (List.mem_cons_self x xs)
    have hxs : ∀ y ∈ xs, y.url ≠ "" := fun y hy => h y (List.mem_cons_of_mem x hy)
    by_cases hc : x.url ≠ "" ∧ seen.all (fun u => u ≠ x.url) = true
    · obtain ⟨ihNot, ihNodup, ihMem, ihFind⟩ := ih (seen ++ [x.url]) hxs
      have hxns : x.url ∉ seen := by
        intro hmem
        have h2 := (List.all_eq_true.mp hc.2) x.url hmem
        simp at h2
      have hmg : mergeGo seen (x :: xs) = x :: mergeGo (seen ++ [x.url]) xs := by
        simp only [mergeGo]
        rw [if_pos hc]
      rw [hmg]
      refine ⟨?_, ?_, ?_, ?_⟩
      · intro y hy
        rcases List.mem_cons.mp hy with h1 | h1
        · subst h1
          exact hxns
        · intro hmem
          exact ihNot y h1 (by simp [hmem])
      · rw [List.map_cons]
        refine List.nodup_cons.mpr ⟨?_, ihNodup⟩
        intro hmem
        have h2 := (ihMem x.url).mp hmem
        exact h2.1 (by simp)
      · intro u
        rw [List.map_cons, List.mem_cons]
        constructor
        · rintro (h1 | h1)
          · subst h1
            exact ⟨hxns, by simp⟩
          · have h2 := (ihMem u).mp h1
            refine ⟨fun hm => h2.1 (by simp [hm]), ?_⟩
            rw [List.map_cons, List.mem_cons]
            exact Or.inr h2.2
        · rintro ⟨h1, h2⟩
          rw [List.map_cons, List.mem_cons] at h2
          rcases h2 with h2 | h2
          · exact Or.inl h2
          · by_cases hux : u = x.url
            · exact Or.inl hux
            · refine Or.inr ((ihMem u).mpr ⟨?_, h2⟩)
              intro hm
              rcases List.mem_append.mp hm with h3 | h3
              · exact h1 h3
              · simp at h3
                exact hux h3
      · intro y hy
        rcases List.mem_cons.mp hy with h1 | h1
        · subst h1
          rw [List.find?_cons_of_pos]
          simp
        · have hyne : y.url ≠ x.url := by
            have hnotin := ihNot y h1
            intro he
            exact hnotin (by simp [he])
          rw [List.find?_cons_of_neg]
          · exact ihFind y h1
          · simp
            exact fun he => hyne he.symm
    · have hseen : x.url ∈ seen := by
        rcases not_and_or.mp hc with h1 | h1
        · exact absurd hx h1
        · by_contra hns
          apply h1
          rw [List.all_eq_true]
          intro u hu
          simp
          intro he
          exact hns (he ▸ hu)
      obtain ⟨ihNot, ihNodup, ihMem, ihFind⟩ := ih seen hxs
      have hmg : mergeGo seen (x :: xs) = mergeGo seen xs := by
        simp only [mergeGo]
        rw [if_neg hc]
      rw [hmg]
      refine ⟨ihNot, ihNodup, ?_, ?_⟩
      · intro u
        rw [ihMem u]
        constructor
        · rintro ⟨h1, h2⟩
          refine ⟨h1, ?_⟩
          rw [List.map_cons, List.mem_cons]
          exact Or.inr h2
        · rintro ⟨h1, h2⟩
          refine ⟨h1, ?_⟩
          rw [List.map_cons, List.mem_cons] at h2
          rcases h2 with h2 | h2
          · subst h2
            exact absurd hseen h1
          · exact h2
      · intro y hy
        have hyne : y.url ≠ x.url := by
          have hnotin := ihNot y hy
          intro he
          exact hnotin (he ▸ hseen)
        rw [List.find?_cons_of_neg]
        · exact ihFind y hy
        · simp
          exact fun he => hyne he.symm

/-- Claim C8 (confirmed): merging two evidence-query result lists whose
items all carry a (truthy) url keeps exactly one entry per distinct url —
the first-seen item, with its title and snippet — preserving first-seen
order (the merged list is a subsequence of the concatenation). -/
theorem C8_merge_dedup (l1 l2 : List Evidence)
    (h : ∀ x ∈ l1 ++ l2, x.url ≠ "") :
    List.Sublist (mergeByUrl (l1 ++ l2)) (l1 ++ l2)
    ∧ ((mergeByUrl (l1 ++ l2)).map Evidence.url).Nodup
    ∧ (∀ u, u ∈ (mergeByUrl (l1 ++ l2)).map Evidence.url
        ↔ u ∈ (l1 ++ l2).map Evidence.url)
    ∧ (∀ y ∈ mergeByUrl (l1 ++ l2),
        (l1 ++ l2).find? (fun z => z.url == y.url) = some y) := by
  rw [mergeByUrl_eq_go]
  obtain ⟨hnot, hnodup, hmem, hfind⟩ := mergeGo_props (l1 ++ l2) [] h
  refine ⟨mergeGo_sublist (l1 ++ l2) [], hnodup, ?_, hfind⟩
  intro u
  rw [hmem u]
  simp

/-- Witness for C8: two query results sharing the url "u1"; the merged
sequence keeps the first-seen item and order. -/
theorem C8_merge_dedup_witness :
    mergeByUrl ([evA] ++ [evB, evC]) = [evA, evC]
    ∧ (∀ y ∈ mergeByUrl ([evA] ++ [evB, evC]),
        ([evA] ++ [evB, evC]).find? (fun z => z.url == y.url) = some y) := by
  have h := C8_merge_dedup [evA] [evB, evC] (by decide)
  exact ⟨by decide, h.2.2.2⟩

end PriceAdvisor
